import Mathlib

/-!
Verification development for the `minka-downloader` repository.

The repository has two Python modules:

* `parallelism.py` — a bounded-concurrency task executor (`threadify`, its
  process-pool twin `multiprocess`, and the index-tagging wrapper
  `__threadify_index_handler`).
* `downloader.py` — the MINKA fetch pipeline (`minka_get`,
  `minka_get_pagination`, `download_picture`, `get_pictures_from_taxa`).

The code is embedded shallowly.  Python exceptions are modelled with
`Except`; network responses are modelled as pure functions from requests to
responses; the nondeterministic completion order of the worker pool is an
explicit parameter, constrained in the theorems to be a permutation of the
submitted task list.
-/

namespace MinkaDownloader

/-! ### Embedding of `src/parallelism.py` -/

section Parallelism

variable {α : Type} {β : Type} {ε : Type}

/-- Embeds `__threadify_index_handler(index, handler, args)`: call the handler on
the argument tuple and pair the returned value with the submission index.
A Python exception raised by the handler is `Except.error`; it is stored in
the future and re-raised by `future.result()`. -/
def threadify_index_handler (index : Nat) (handler : α → Except ε β) (args : α) :
    Except ε (Nat × β) :=
  (handler args).map (fun result => (index, result))

/-- The task list built by the submission loop of `threadify`/`multiprocess`:
`index` starts at 0 and counts up, so the submitted tasks are exactly
`arg_list` tagged with positions. -/
def submitTasks (argList : List α) : List (Nat × α) :=
  argList.enum

/-- Embeds the `for future in futures.as_completed(threads)` loop: read each
future's result in completion order and append it to `results`.  The first
`future.result()` that re-raises a stored exception aborts the loop (and the
whole call). -/
def collectResults (handler : α → Except ε β) : List (Nat × α) → Except ε (List (Nat × β))
  | [] => Except.ok []
  | t :: rest =>
    match threadify_index_handler t.1 handler t.2 with
    | Except.error e => Except.error e
    | Except.ok r => (collectResults handler rest).map (fun rs => r :: rs)

/-- Embeds `sorted(results, key=lambda a: a[0])`: stable sort of the collected
results by the submission index. -/
def sortResults (results : List (Nat × β)) : List (Nat × β) :=
  results.mergeSort (fun a b => a.1 ≤ b.1)

/-- The final loop of `threadify`: drop the index tags, keeping only the
handler outputs. -/
def stripIndexes (sortedResults : List (Nat × β)) : List β :=
  sortedResults.map Prod.snd

/-- Embeds `threadify(arg_list, handler, max_threads, text)`.  The completion order
of the futures is the explicit parameter `completed`: the theorems
constrain it to be a permutation of `submitTasks arg_list`.  `maxThreads`
only bounds the pool size and does not influence the returned value. -/
def threadify (argList : List α) (handler : α → Except ε β) (maxThreads : Nat)
    (completed : List (Nat × α)) : Except ε (List β) :=
  (collectResults handler completed).map (fun results => stripIndexes (sortResults results))

/-- Embeds `multiprocess(arg_list, handler, max_workers, text)`: the process-pool
variant.  The source duplicates the body of `threadify` verbatim (submit
loop, `as_completed` collection with a progress bar, sort by index, strip
indexes), so the embedding repeats the same pipeline. -/
def multiprocess (argList : List α) (handler : α → Except ε β) (maxWorkers : Nat)
    (completed : List (Nat × α)) : Except ε (List β) :=
  (collectResults handler completed).map (fun results => stripIndexes (sortResults results))

/-! #### Observable progress-reporter behaviour -/

/-- The value of the progress counter seen by the external observer after
each completion event: the collection loop calls
`progress.update(task, advance=1)` once per completed future, starting from
a counter of 0. -/
def progressTrace : List (Nat × α) → Nat → List Nat
  | [], _ => []
  | _ :: rest, count => (count + 1) :: progressTrace rest (count + 1)

/-- Progress-reporter events of one executor call. -/
inductive PEvent where
  | progressStart : PEvent
  | addTask : Nat → PEvent
  | advance : Nat → PEvent
deriving DecidableEq, Repr

/-- The observable progress events of one `threadify` call with a
terminating handler: `with Progress() as progress` is entered
unconditionally, one bar is added via `progress.add_task(text, total=index)`
where `index` is the number of submitted tasks, and the counter advances by
one per completed future. -/
def threadifyEvents (argList : List α) (completed : List (Nat × α)) : List PEvent :=
  PEvent.progressStart :: PEvent.addTask argList.length ::
    (progressTrace completed 0).map PEvent.advance


end Parallelism

/-! ### Embedding of `src/downloader.py` -/

section Downloader

variable {ρ : Type}

/-- An HTTP response, with its status code and its already-decoded body
(`json.loads(r.text)` for the API helpers, `r.content` for downloads). -/
structure HttpResponse (ρ : Type) where
  status_code : Nat
  body : ρ
deriving DecidableEq, Repr

/-- One page of a paginated MINKA reply: the `results` field and the
server-reported `total_results`. -/
structure PageResponse (ρ : Type) where
  results : List ρ
  total_results : Nat
deriving DecidableEq, Repr

/-- Embeds `minka_get(endpoint, params)` as used by the pagination loop:
over one pagination run all parameters except `page` are fixed, so the
network is a pure function `net` from the requested page number to the
server's response.  A status code strictly greater than 300 raises
`ValueError("Error in HTTP petition to MINKA")`; otherwise the parsed body
is returned. -/
def minka_get (net : Nat → HttpResponse ρ) (page : Nat) : Except String ρ :=
  let r := net page
  if r.status_code > 300 then Except.error "Error in HTTP petition to MINKA"
  else Except.ok r.body

/-- Embeds the accumulation loop of `minka_get_pagination`: from the first
page's reply, compute `npages = ceil(total_results / per_page)` and fetch
pages `2, ..., npages` in order, concatenating their `results` fields (an
HTTP error on any page propagates).  The natural-number ceiling
`(total + per_page - 1) / per_page` agrees with `np.ceil(total/per_page)`
for every positive `per_page`, and `per_page` is positive (200) in every
call the source makes. -/
def paginationCollect (net : Nat → HttpResponse (PageResponse ρ)) (per_page : Nat)
    (first : PageResponse ρ) : Except String (List ρ) :=
  let npages := (first.total_results + per_page - 1) / per_page
  (List.range' 2 (npages - 1)).foldlM
    (fun acc i => (minka_get net i).map (fun resp => acc ++ resp.results))
    first.results

/-- Embeds `minka_get_pagination(endpoint, params, per_page)`: fetch the
first page, accumulate the remaining pages, then raise
`ValueError("Expected and returned lengths do not match")` when the
accumulated record count differs from the server-reported total, else
return the accumulated records. -/
def minka_get_pagination (net : Nat → HttpResponse (PageResponse ρ))
    (per_page : Nat) : Except String (List ρ) :=
  match minka_get net 1 with
  | Except.error e => Except.error e
  | Except.ok first =>
    match paginationCollect net per_page first with
    | Except.error e => Except.error e
    | Except.ok results =>
      if results.length ≠ first.total_results then
        Except.error "Expected and returned lengths do not match"
      else Except.ok results

/-- URL of the original photo attachment for `pic_id` with extension
`format`, as interpolated in `download_picture`. -/
def picUrl (pic_id : Nat) (format : String) : String :=
  "https://minka-sdg.org/attachments/local_photos/files/" ++ toString pic_id ++
    "/original." ++ format

/-- The fixed list of candidate file extensions tried by
`download_picture`, in order. -/
def formats : List String :=
  ["jpeg", "jpg", "png"]

/-- Embeds the `for format in formats` loop of `download_picture`: try each
extension in order and break at the first response with status code
strictly below 300; after the loop, `success`, `url` and `r` hold the
values of the last attempt made. -/
def downloadAttempts (net : String → HttpResponse ρ) (pic_id : Nat) :
    String → List String → Bool × String × HttpResponse ρ
  | fmt, rest =>
    let url := picUrl pic_id fmt
    let r := net url
    if r.status_code < 300 then (true, url, r)
    else
      match rest with
      | [] => (false, url, r)
      | f :: fs => downloadAttempts net pic_id f fs

/-- Embeds `download_picture(pic_id, output)`: run the attempt loop over
`formats`; when an attempt succeeded, write the content of the (last)
response to `output` — the returned list of `(path, content)` pairs models
the `open(output, "wb")` write — and in every case return the
`(success, url)` pair. -/
def download_picture (net : String → HttpResponse ρ) (pic_id : Nat) (output : String) :
    (Bool × String) × List (String × ρ) :=
  match downloadAttempts net pic_id "jpeg" ["jpg", "png"] with
  | (success, url, r) => ((success, url), if success then [(output, r.body)] else [])

/-- Download behaviour as the specification words it (for the refinement
comparison): try the fixed extension list in order, succeed at the first
status below 300, writing that response's content; when no extension
succeeds, return a structured failure `(false, locator)` carrying the last
attempted locator, writing nothing. -/
def downloadSpec (net : String → HttpResponse ρ) (pic_id : Nat) (output : String) :
    (Bool × String) × List (String × ρ) :=
  match formats.find? (fun f => (net (picUrl pic_id f)).status_code < 300) with
  | some f => ((true, picUrl pic_id f), [(output, (net (picUrl pic_id f)).body)])
  | none => ((false, picUrl pic_id "png"), [])

/-- A photo record of an observation; only its `id` field is consumed. -/
structure Photo where
  id : Nat
deriving DecidableEq, Repr

/-- An observation record: a license code (possibly null) and a list of
photos. -/
structure Observation where
  license_code : Option String
  photos : List Photo
deriving DecidableEq, Repr

/-- License value stored for a photo by `get_pictures_from_taxa`: the
observation's license code when it is truthy (present and non-empty in the
Python sense), else the string `"unknown"`. -/
def licenseValue : Option String → String
  | none => "unknown"
  | some s => if s = "" then "unknown" else s

/-- Embeds the double loop of `get_pictures_from_taxa`: for each
observation in order, append every photo id to `pic_ids` and bind every
photo id to the observation's (substituted) license.  The Python dict is
modelled as the binding list in write order, read by `dictLookup` with
later bindings overwriting earlier ones. -/
def collectPics : List Observation → List Nat × List (Nat × String)
  | [] => ([], [])
  | r :: rest =>
    let tail := collectPics rest
    (r.photos.map Photo.id ++ tail.1,
     r.photos.map (fun p => (p.id, licenseValue r.license_code)) ++ tail.2)

/-- Reads the modelled dict: the value of the last binding written for the
key, as in a Python dict built by repeated assignment. -/
def dictLookup (bindings : List (Nat × String)) (k : Nat) : Option String :=
  (bindings.reverse.find? (fun b => b.1 == k)).map Prod.snd

/-- Embeds `np.unique`: the ascending sorted list of the distinct elements
of the input. -/
def np_unique (l : List Nat) : List Nat :=
  l.toFinset.sort (· ≤ ·)

/-- Embeds `get_pictures_from_taxa` after its pagination call: loop over
the observation records collecting photo ids and licenses, then
deduplicate (and sort) the id list with `np.unique`. -/
def get_pictures_from_taxa (results : List Observation) :
    List Nat × List (Nat × String) :=
  (np_unique (collectPics results).1, (collectPics results).2)

end Downloader

/-! ### Helper lemmas -/

section Lemmas

variable {α : Type} {β : Type} {ε : Type} {ρ : Type}

theorem enumFrom_map_pair (f : α → β) :
    ∀ (n : Nat) (l : List α),
      (l.map f).enumFrom n = (l.enumFrom n).map (fun t => (t.1, f t.2))
  | _, [] => rfl
  | n, a :: l => by
    simp only [List.map_cons, List.enumFrom_cons, List.map_cons]
    exact congrArg _ (enumFrom_map_pair f (n + 1) l)

theorem enum_map_pair (f : α → β) (l : List α) :
    (l.map f).enum = l.enum.map (fun t => (t.1, f t.2)) :=
  enumFrom_map_pair f 0 l

theorem collectResults_ok (f : α → β) :
    ∀ l : List (Nat × α),
      collectResults (fun a => (Except.ok (f a) : Except ε β)) l =
        Except.ok (l.map (fun t => (t.1, f t.2)))
  | [] => rfl
  | t :: rest => by
    simp only [collectResults, threadify_index_handler, Except.map,
      collectResults_ok f rest, List.map_cons]

/-- Sorting by the index key is deterministic on any permutation of an
`enum`: the keys `0, 1, ..., n-1` are distinct, so the only sorted
arrangement is the `enum` itself. -/
theorem sortResults_eq_of_perm_enum {l : List β} {results : List (Nat × β)}
    (h : results.Perm l.enum) : sortResults results = l.enum := by
  have hperm : (sortResults results).Perm l.enum :=
    (List.mergeSort_perm results _).trans h
  have hkeys : l.enum.map Prod.fst = List.range' 0 l.length :=
    List.enumFrom_map_fst 0 l
  have henum_lt : l.enum.Pairwise (fun a b : Nat × β => a.1 < b.1) := by
    have hr := List.pairwise_lt_range' 0 l.length
    rw [← hkeys] at hr
    exact (List.pairwise_map).1 hr
  have hkeys_nodup : ((sortResults results).map Prod.fst).Nodup := by
    have hp : ((sortResults results).map Prod.fst).Perm (List.range' 0 l.length) := by
      rw [← hkeys]
      exact hperm.map Prod.fst
    exact hp.nodup_iff.2 (List.nodup_range' 0 l.length)
  have hne : (sortResults results).Pairwise (fun a b : Nat × β => a.1 ≠ b.1) :=
    (List.pairwise_map).1 hkeys_nodup
  have hle : (sortResults results).Pairwise
      (fun a b : Nat × β => (a.1 ≤ b.1 : Bool) = true) := by
    apply List.sorted_mergeSort
    · intro a b c hab hbc
      simp only [decide_eq_true_eq] at hab hbc ⊢
      exact le_trans hab hbc
    · intro a b
      simp only [Bool.or_eq_true, decide_eq_true_eq]
      exact Nat.le_total a.1 b.1
  have hlt : (sortResults results).Pairwise (fun a b : Nat × β => a.1 < b.1) := by
    refine (hle.and hne).imp ?_
    rintro a b ⟨h1, h2⟩
    simp only [decide_eq_true_eq] at h1
    exact lt_of_le_of_ne h1 h2
  haveI : IsAntisymm (Nat × β) (fun a b : Nat × β => a.1 < b.1) :=
    ⟨fun a b h1 h2 => absurd (h1.trans h2) (lt_irrefl _)⟩
  exact List.eq_of_perm_of_sorted hperm hlt henum_lt

/-- On a terminating handler and a completion order that is a permutation
of the submitted tasks, `threadify` returns exactly the input-order map of
the handler over the argument list. -/
theorem threadify_ok_eq_map (argList : List α) (f : α → β) (maxThreads : Nat)
    (completed : List (Nat × α)) (h : completed.Perm (submitTasks argList)) :
    threadify argList (fun a => (Except.ok (f a) : Except ε β)) maxThreads completed =
      Except.ok (argList.map f) := by
  unfold threadify
  rw [collectResults_ok]
  have hres : (completed.map (fun t => (t.1, f t.2))).Perm (argList.map f).enum := by
    rw [enum_map_pair]
    exact (h.map (fun t => (t.1, f t.2)))
  simp only [Except.map]
  rw [sortResults_eq_of_perm_enum hres]
  unfold stripIndexes
  rw [List.enum_eq_enumFrom, List.enumFrom_map_snd]

theorem progressTrace_eq_range' :
    ∀ (l : List (Nat × α)) (count : Nat),
      progressTrace l count = List.range' (count + 1) l.length
  | [], _ => rfl
  | _ :: rest, count => by
    simp only [progressTrace, List.length_cons, List.range'_succ]
    exact congrArg _ (progressTrace_eq_range' rest (count + 1))

theorem getLast?_range' (s n : Nat) :
    (List.range' s (n + 1)).getLast? = some (s + n) := by
  rw [List.range'_1_concat, List.getLast?_concat]

/-! #### Fail-fast behaviour of the collection loop -/

theorem collectResults_error_of_mem {handler : α → Except ε β} {e : ε} {a : α} :
    ∀ {l : List (Nat × α)} {i : Nat}, (i, a) ∈ l → handler a = Except.error e →
      ∃ e', collectResults handler l = Except.error e'
  | t :: rest, i, hmem, he => by
    rcases List.mem_cons.1 hmem with heq | htail
    · refine ⟨e, ?_⟩
      simp only [collectResults, threadify_index_handler, ← heq, he, Except.map]
    · match hh : handler t.2 with
      | Except.error e₀ =>
        refine ⟨e₀, ?_⟩
        simp only [collectResults, threadify_index_handler, hh, Except.map]
      | Except.ok b =>
        obtain ⟨e', he'⟩ := collectResults_error_of_mem htail he
        refine ⟨e', ?_⟩
        simp only [collectResults, threadify_index_handler, hh, Except.map, he']


/-! #### Lemmas about the download loop -/

theorem downloadAttempts_fst_true_iff (net : String → HttpResponse ρ) (pic_id : Nat) :
    ∀ (rest : List String) (fmt : String),
      (downloadAttempts net pic_id fmt rest).1 = true ↔
        ∃ f ∈ fmt :: rest, (net (picUrl pic_id f)).status_code < 300
  | [], fmt => by
    by_cases hs : (net (picUrl pic_id fmt)).status_code < 300
    · rw [downloadAttempts, if_pos hs]
      simp [hs]
    · rw [downloadAttempts, if_neg hs]
      simp [hs]
  | g :: gs, fmt => by
    by_cases hs : (net (picUrl pic_id fmt)).status_code < 300
    · rw [downloadAttempts, if_pos hs]
      simp [hs]
    · rw [downloadAttempts, if_neg hs]
      rw [downloadAttempts_fst_true_iff net pic_id gs g]
      simp only [List.mem_cons]
      constructor
      · rintro ⟨f, hf, hsf⟩
        exact ⟨f, Or.inr hf, hsf⟩
      · rintro ⟨f, hf, hsf⟩
        rcases hf with rfl | hf
        · exact absurd hsf hs
        · exact ⟨f, hf, hsf⟩

theorem download_picture_eq_spec (net : String → HttpResponse ρ) (pic_id : Nat)
    (output : String) :
    download_picture net pic_id output = downloadSpec net pic_id output := by
  unfold download_picture downloadSpec formats
  by_cases h1 : (net (picUrl pic_id "jpeg")).status_code < 300
  · rw [downloadAttempts, if_pos h1]
    simp [List.find?, h1]
  · rw [downloadAttempts, if_neg h1]
    by_cases h2 : (net (picUrl pic_id "jpg")).status_code < 300
    · rw [downloadAttempts, if_pos h2]
      simp [List.find?, h1, h2]
    · rw [downloadAttempts, if_neg h2]
      by_cases h3 : (net (picUrl pic_id "png")).status_code < 300
      · rw [downloadAttempts, if_pos h3]
        simp [List.find?, h1, h2, h3]
      · rw [downloadAttempts, if_neg h3]
        simp [List.find?, h1, h2, h3]

/-! #### Lemmas about the observation loop and the modelled dict -/

theorem collectPics_fst_eq_keys :
    ∀ rs : List Observation, (collectPics rs).1 = (collectPics rs).2.map Prod.fst
  | [] => rfl
  | r :: rest => by
    simp only [collectPics, List.map_append, List.map_map]
    rw [collectPics_fst_eq_keys rest]
    rfl

theorem dictLookup_eq_some_of_mem_keys {bindings : List (Nat × String)} {k : Nat}
    (h : k ∈ bindings.map Prod.fst) :
    ∃ v, dictLookup bindings k = some v ∧ (k, v) ∈ bindings := by
  have h' : ∃ b ∈ bindings.reverse, (b.1 == k) = true := by
    rw [List.mem_map] at h
    obtain ⟨b, hb, hbk⟩ := h
    exact ⟨b, List.mem_reverse.2 hb, by simp [hbk]⟩
  cases hf : bindings.reverse.find? (fun b => b.1 == k) with
  | none =>
    obtain ⟨b, hb, hbk⟩ := h'
    exact absurd hbk (List.find?_eq_none.1 hf b hb)
  | some b =>
    have hpb := List.find?_some hf
    have hbk : b.1 = k := by simpa using hpb
    have hmem : b ∈ bindings := List.mem_reverse.1 (List.mem_of_find?_eq_some hf)
    refine ⟨b.2, ?_, ?_⟩
    · unfold dictLookup
      rw [hf]
      rfl
    · rw [← hbk]
      exact hmem

theorem licenseValue_ne_empty : ∀ lc : Option String, licenseValue lc ≠ ""
  | none => by simp [licenseValue]
  | some s => by
    unfold licenseValue
    by_cases h : s = ""
    · simp [h]
    · simp [h]

theorem collectPics_snd_mem :
    ∀ (rs : List Observation) (b : Nat × String), b ∈ (collectPics rs).2 →
      ∃ r ∈ rs, ∃ p ∈ r.photos, b = (p.id, licenseValue r.license_code)
  | [], b, hb => by simp [collectPics] at hb
  | r :: rest, b, hb => by
    simp only [collectPics, List.mem_append] at hb
    rcases hb with hb | hb
    · obtain ⟨p, hp, he⟩ := List.mem_map.1 hb
      exact ⟨r, List.mem_cons_self r rest, p, hp, he.symm⟩
    · obtain ⟨r', hr', p, hp, he⟩ := collectPics_snd_mem rest b hb
      exact ⟨r', List.mem_cons_of_mem r hr', p, hp, he⟩

theorem dictLookup_append_last (bindings : List (Nat × String)) (k : Nat) (v : String) :
    dictLookup (bindings ++ [(k, v)]) k = some v := by
  unfold dictLookup
  rw [List.reverse_append]
  simp [List.find?]

end Lemmas

/-! ### Claim theorems for the executor (C1) -/

/-- C1 (Order preservation): for every input sequence of argument tuples and
every terminating handler, `threadify`'s output sequence, read positionally,
equals the handler mapped over the inputs in input order, independent of the
completion order of the workers: any permutation of the submitted
index-tagged task list produces the same input-order result. -/
theorem C1_threadify_order_preservation {α β ε : Type}
    (argList : List α) (f : α → β) (maxThreads : Nat)
    (completed : List (Nat × α)) (h : completed.Perm (submitTasks argList)) :
    threadify argList (fun a => (Except.ok (f a) : Except ε β)) maxThreads completed =
      Except.ok (argList.map f) :=
  threadify_ok_eq_map argList f maxThreads completed h

/-- Witness for C1 at a concrete input: three tasks completing in the order
2, 0, 1 still produce the input-order outputs. -/
theorem C1_threadify_order_preservation_witness :
    threadify [10, 20, 30] (fun a => (Except.ok (a + 1) : Except Unit Nat)) 10
        [(2, 30), (0, 10), (1, 20)] = Except.ok [11, 21, 31] :=
  C1_threadify_order_preservation [10, 20, 30] (fun a => a + 1) 10
    [(2, 30), (0, 10), (1, 20)] (by decide)

/-- C2 as stated is refuted on the empty input: `threadify([])` does return
an empty sequence, but it does start the progress reporter — the
`with Progress()` block is entered unconditionally and a bar with
`total = 0` is added, so the run's event list is not free of
reporter-start events. -/
theorem C2_counterexample :
    threadify ([] : List Nat) (fun a => (Except.ok a : Except Unit Nat)) 10 [] =
        Except.ok [] ∧
    threadifyEvents ([] : List Nat) ([] : List (Nat × Nat)) =
        [PEvent.progressStart, PEvent.addTask 0] := by
  constructor
  · simp [threadify, collectResults, Except.map, sortResults, stripIndexes,
      List.mergeSort_nil]
  · rfl

/-- C2 amended (Completeness and the empty-input case): for every input
sequence of length N ≥ 0, a terminating handler and any completion order of
the submitted tasks, the output sequence has length exactly N; the empty
task sequence yields an empty output sequence, but the progress reporter is
nonetheless started, with a task bar of total 0 and no update events. -/
theorem C2_threadify_completeness {α β ε : Type} (argList : List α) (f : α → β)
    (maxThreads : Nat) (completed : List (Nat × α))
    (h : completed.Perm (submitTasks argList)) :
    (∃ out, threadify argList (fun a => (Except.ok (f a) : Except ε β)) maxThreads
        completed = Except.ok out ∧ out.length = argList.length) ∧
    threadify ([] : List α) (fun a => (Except.ok (f a) : Except ε β)) maxThreads [] =
        Except.ok [] ∧
    threadifyEvents ([] : List α) ([] : List (Nat × α)) =
        [PEvent.progressStart, PEvent.addTask 0] := by
  refine ⟨⟨argList.map f, threadify_ok_eq_map argList f maxThreads completed h,
    List.length_map argList f⟩, ?_, rfl⟩
  simp [threadify, collectResults, Except.map, sortResults, stripIndexes,
    List.mergeSort_nil]

/-- Witness for C2 at a concrete input of length 2 with reversed completion
order. -/
theorem C2_threadify_completeness_witness :
    (∃ out, threadify [5, 6] (fun a => (Except.ok (a * 2) : Except Unit Nat)) 10
        [(1, 6), (0, 5)] = Except.ok out ∧ out.length = 2) ∧
    threadify ([] : List Nat) (fun a => (Except.ok (a * 2) : Except Unit Nat)) 10 [] =
        Except.ok [] ∧
    threadifyEvents ([] : List Nat) ([] : List (Nat × Nat)) =
        [PEvent.progressStart, PEvent.addTask 0] :=
  C2_threadify_completeness [5, 6] (fun a => a * 2) 10 [(1, 6), (0, 5)] (by decide)

/-- C3 (Fail-fast error propagation): if the handler raises on some task in
the argument list, the whole `threadify` call propagates an error — no
partial list of successful results is returned, whatever the completion
order of the futures. -/
theorem C3_threadify_fail_fast {α β ε : Type} (argList : List α)
    (handler : α → Except ε β) (maxThreads : Nat) (completed : List (Nat × α))
    (h : completed.Perm (submitTasks argList)) (a : α) (ha : a ∈ argList)
    (e : ε) (he : handler a = Except.error e) :
    ∃ e', threadify argList handler maxThreads completed = Except.error e' := by
  have ha' : a ∈ (submitTasks argList).map Prod.snd := by
    unfold submitTasks
    rw [List.enum_eq_enumFrom, List.enumFrom_map_snd]
    exact ha
  obtain ⟨t, ht, hta⟩ := List.mem_map.1 ha'
  have htc : (t.1, a) ∈ completed := by
    have : t = (t.1, a) := by
      rw [← hta]
    exact h.mem_iff.2 (this ▸ ht)
  obtain ⟨e', he'⟩ := collectResults_error_of_mem htc he
  refine ⟨e', ?_⟩
  unfold threadify
  rw [he']
  rfl

/-- Witness for C3: tasks (1), (2), (3) with a handler raising on 2, in
natural completion order — the run yields an error, not a partial list. -/
theorem C3_threadify_fail_fast_witness :
    ∃ e', threadify [1, 2, 3]
        (fun a => if a = 2 then Except.error "boom" else (Except.ok a : Except String Nat))
        10 [(0, 1), (1, 2), (2, 3)] = Except.error e' :=
  C3_threadify_fail_fast [1, 2, 3]
    (fun a => if a = 2 then Except.error "boom" else Except.ok a) 10
    [(0, 1), (1, 2), (2, 3)] (by decide) 2 (by decide) "boom" (by rfl)

/-- C4 (Progress monotonicity): over a run in which every handler
terminates, the counter values observed after the successive completion
events are exactly 1, 2, ..., N: non-decreasing, advancing by exactly one
per completed task, never exceeding the total N of submitted tasks, and
ending at exactly N when the run completes. -/
theorem C4_progress_monotonicity {α : Type} (argList : List α)
    (completed : List (Nat × α)) (h : completed.Perm (submitTasks argList)) :
    progressTrace completed 0 = List.range' 1 argList.length ∧
    (progressTrace completed 0).Pairwise (· ≤ ·) ∧
    (∀ c ∈ progressTrace completed 0, 0 ≤ c ∧ c ≤ argList.length) ∧
    (argList.length ≠ 0 →
      (progressTrace completed 0).getLast? = some argList.length) := by
  have hlen : completed.length = argList.length := by
    rw [h.length_eq]
    unfold submitTasks
    exact List.enum_length
  have htrace : progressTrace completed 0 = List.range' 1 argList.length := by
    rw [progressTrace_eq_range', hlen]
  refine ⟨htrace, ?_, ?_, ?_⟩
  · rw [htrace]
    exact List.pairwise_le_range' 1 argList.length
  · intro c hc
    rw [htrace] at hc
    obtain ⟨i, hi, hc⟩ := List.mem_range'.1 hc
    omega
  · intro hne
    rw [htrace]
    obtain ⟨n, hn⟩ := Nat.exists_eq_succ_of_ne_zero hne
    rw [hn, getLast?_range']
    rw [Nat.add_comm]

/-- Witness for C4: three tasks completing in the order 1, 2, 0 — the
observed counter values are exactly 1, 2, 3. -/
theorem C4_progress_monotonicity_witness :
    progressTrace [(1, 20), (2, 30), (0, 10)] 0 = List.range' 1 3 ∧
    (progressTrace [(1, 20), (2, 30), (0, 10)] 0).Pairwise (· ≤ ·) ∧
    (∀ c ∈ progressTrace [(1, 20), (2, 30), (0, 10)] 0, 0 ≤ c ∧ c ≤ 3) ∧
    (3 ≠ 0 → (progressTrace [(1, 20), (2, 30), (0, 10)] 0).getLast? = some 3) :=
  C4_progress_monotonicity [10, 20, 30] [(1, 20), (2, 30), (0, 10)] (by decide)

/-- C5 (Strategy equivalence): `multiprocess` and `threadify` return the
same value on every argument list, handler, worker bound and completion
order — and in particular both satisfy the executor contract: with a
terminating handler and a completion order permuting the submitted tasks,
both return the input-order map of the handler over the inputs. -/
theorem C5_strategy_equivalence {α β ε : Type} (argList : List α)
    (handler : α → Except ε β) (workers : Nat) (completed : List (Nat × α)) :
    multiprocess argList handler workers completed =
      threadify argList handler workers completed ∧
    (∀ f : α → β, completed.Perm (submitTasks argList) →
      multiprocess argList (fun a => (Except.ok (f a) : Except ε β)) workers completed =
          Except.ok (argList.map f) ∧
      threadify argList (fun a => (Except.ok (f a) : Except ε β)) workers completed =
          Except.ok (argList.map f)) := by
  refine ⟨rfl, fun f h => ?_⟩
  have := threadify_ok_eq_map (ε := ε) argList f workers completed h
  exact ⟨this, this⟩

/-- C6 (Pagination total validation): a paginated query accumulates the
`results` fields across pages; a successful return is exactly the
accumulated list and its length equals the server-reported
`total_results`, while a divergence between the accumulated count and the
reported total makes the call raise the pagination-mismatch error (the
error value, not a retry). -/
theorem C6_pagination_total_validation {ρ : Type}
    (net : Nat → HttpResponse (PageResponse ρ)) (per_page : Nat) :
    (∀ l, minka_get_pagination net per_page = Except.ok l →
      ∃ first, minka_get net 1 = Except.ok first ∧
        paginationCollect net per_page first = Except.ok l ∧
        l.length = first.total_results) ∧
    (∀ first l, minka_get net 1 = Except.ok first →
      paginationCollect net per_page first = Except.ok l →
      l.length ≠ first.total_results →
      minka_get_pagination net per_page =
        Except.error "Expected and returned lengths do not match") := by
  constructor
  · intro l hl
    unfold minka_get_pagination at hl
    cases hg : minka_get net 1 with
    | error e => rw [hg] at hl; exact absurd hl (by simp)
    | ok first =>
      rw [hg] at hl
      dsimp only at hl
      cases hc : paginationCollect net per_page first with
      | error e => rw [hc] at hl; exact absurd hl (by simp)
      | ok res =>
        rw [hc] at hl
        dsimp only at hl
        by_cases hlen : res.length ≠ first.total_results
        · rw [if_pos hlen] at hl; exact absurd hl (by simp)
        · rw [if_neg hlen] at hl
          obtain rfl : res = l := by exact Except.ok.inj hl
          exact ⟨first, rfl, hc, not_ne_iff.1 hlen⟩
  · intro first l hg hc hne
    unfold minka_get_pagination
    rw [hg]
    dsimp only
    rw [hc]
    dsimp only
    rw [if_pos hne]

/-- Witness for C6: a server reporting 3 records over two pages of size 2
succeeds with the accumulated 3 records; a server reporting 5 records but
serving 6 raises the mismatch error. -/
theorem C6_pagination_total_validation_witness :
    (∃ first,
      minka_get (fun page =>
        if page = 1 then HttpResponse.mk 200 (PageResponse.mk [10, 20] 3)
        else HttpResponse.mk 200 (PageResponse.mk [30] 3)) 1 = Except.ok first ∧
      paginationCollect (fun page =>
        if page = 1 then HttpResponse.mk 200 (PageResponse.mk [10, 20] 3)
        else HttpResponse.mk 200 (PageResponse.mk [30] 3)) 2 first =
          Except.ok [10, 20, 30] ∧
      ([10, 20, 30] : List Nat).length = first.total_results) ∧
    minka_get_pagination
        (fun _ => HttpResponse.mk 200 (PageResponse.mk [(1 : Nat), 2] 5)) 2 =
      Except.error "Expected and returned lengths do not match" :=
  ⟨(C6_pagination_total_validation (fun page =>
      if page = 1 then HttpResponse.mk 200 (PageResponse.mk [10, 20] 3)
      else HttpResponse.mk 200 (PageResponse.mk [30] 3)) 2).1 [10, 20, 30] rfl,
   (C6_pagination_total_validation
      (fun _ => HttpResponse.mk 200 (PageResponse.mk [(1 : Nat), 2] 5)) 2).2
     (PageResponse.mk [1, 2] 5) [1, 2, 1, 2, 1, 2] rfl rfl (by decide)⟩

/-- Witness for C5 at a concrete input: both executors map the handler in
input order under the completion order 1, 0. -/
theorem C5_strategy_equivalence_witness :
    multiprocess [4, 7] (fun a => (Except.ok (a + 1) : Except Unit Nat)) 20
        [(1, 7), (0, 4)] =
      threadify [4, 7] (fun a => (Except.ok (a + 1) : Except Unit Nat)) 20
        [(1, 7), (0, 4)] ∧
    multiprocess [4, 7] (fun a => (Except.ok (a + 1) : Except Unit Nat)) 20
        [(1, 7), (0, 4)] = Except.ok [5, 8] ∧
    threadify [4, 7] (fun a => (Except.ok (a + 1) : Except Unit Nat)) 20
        [(1, 7), (0, 4)] = Except.ok [5, 8] :=
  ⟨(C5_strategy_equivalence [4, 7] (fun a => (Except.ok (a + 1) : Except Unit Nat)) 20
      [(1, 7), (0, 4)]).1,
   (C5_strategy_equivalence [4, 7] (fun a => (Except.ok (a + 1) : Except Unit Nat)) 20
      [(1, 7), (0, 4)]).2 (fun a => a + 1) (by decide)⟩

/-- C7 (Download handler structured failure): `download_picture` tries the
candidate extensions in the fixed order jpeg, jpg, png, stopping at the
first attempt whose status code indicates success (is below 300); when no
extension succeeds it returns `(false, locator)` as data — the locator of
the last attempt, with no file written — and when one succeeds it writes
the received content to the destination path and returns
`(true, locator)`; in all cases it returns a `(Bool, String)` pair. -/
theorem C7_download_picture_structured_failure {ρ : Type}
    (net : String → HttpResponse ρ) (pic_id : Nat) (output : String) :
    download_picture net pic_id output = downloadSpec net pic_id output :=
  download_picture_eq_spec net pic_id output

/-- C9 (Picture list and licenses of `get_pictures_from_taxa`): the
returned picture-id list is sorted ascending and duplicate-free while
keeping exactly the collected ids; every returned id is mapped by the
licenses dict to a non-empty license string; every dict binding stems from
an observation containing that photo, with value the observation's license
or `"unknown"` when the license code is absent or falsy; and it is the last
written binding for a key — hence the last observation containing a
picture — that determines that picture's license. -/
theorem C9_get_pictures_from_taxa_unique_sorted_licenses
    (results : List Observation) :
    ((get_pictures_from_taxa results).1.Sorted (· ≤ ·) ∧
      (get_pictures_from_taxa results).1.Nodup) ∧
    (∀ i, i ∈ (get_pictures_from_taxa results).1 ↔ i ∈ (collectPics results).1) ∧
    (∀ i ∈ (get_pictures_from_taxa results).1,
      ∃ s, dictLookup (get_pictures_from_taxa results).2 i = some s ∧ s ≠ "") ∧
    (∀ b ∈ (get_pictures_from_taxa results).2,
      ∃ r ∈ results, ∃ p ∈ r.photos, b = (p.id, licenseValue r.license_code)) ∧
    (∀ (bindings : List (Nat × String)) (k : Nat) (v : String),
      dictLookup (bindings ++ [(k, v)]) k = some v) ∧
    (licenseValue none = "unknown" ∧ licenseValue (some "") = "unknown" ∧
      ∀ s : String, s ≠ "" → licenseValue (some s) = s) := by
  have hmem : ∀ i : Nat,
      i ∈ (get_pictures_from_taxa results).1 ↔ i ∈ (collectPics results).1 := by
    intro i
    unfold get_pictures_from_taxa np_unique
    rw [Finset.mem_sort, List.mem_toFinset]
  refine ⟨⟨?_, ?_⟩, hmem, ?_, ?_, dictLookup_append_last, rfl, rfl, ?_⟩
  · simp only [get_pictures_from_taxa, np_unique]
    exact Finset.sort_sorted (· ≤ ·) _
  · simp only [get_pictures_from_taxa, np_unique]
    exact Finset.sort_nodup (· ≤ ·) _
  · intro i hi
    have hkeys : i ∈ (collectPics results).2.map Prod.fst := by
      rw [← collectPics_fst_eq_keys]
      exact (hmem i).1 hi
    obtain ⟨v, hv, hmemb⟩ := dictLookup_eq_some_of_mem_keys hkeys
    refine ⟨v, hv, ?_⟩
    obtain ⟨r, _, p, _, he⟩ := collectPics_snd_mem results (i, v) hmemb
    have : v = licenseValue r.license_code := congrArg Prod.snd he
    rw [this]
    exact licenseValue_ne_empty r.license_code
  · exact collectPics_snd_mem results
  · intro s hs
    show (if s = "" then "unknown" else s) = s
    rw [if_neg hs]

/-- Witness for C9 on two concrete observations sharing a photo id: the id
list is the sorted dedup [3, 5]; photo 5 appears in both observations and
its license is the later binding, the `"unknown"` substituted for the
second observation's null license code. -/
theorem C9_get_pictures_from_taxa_witness :
    (get_pictures_from_taxa
        [Observation.mk (some "cc-by") [Photo.mk 5, Photo.mk 3],
         Observation.mk none [Photo.mk 5]]).1.Sorted (· ≤ ·) ∧
    (5 ∈ (get_pictures_from_taxa
        [Observation.mk (some "cc-by") [Photo.mk 5, Photo.mk 3],
         Observation.mk none [Photo.mk 5]]).1 ↔
      5 ∈ (collectPics
        [Observation.mk (some "cc-by") [Photo.mk 5, Photo.mk 3],
         Observation.mk none [Photo.mk 5]]).1) ∧
    (∃ s, dictLookup (get_pictures_from_taxa
        [Observation.mk (some "cc-by") [Photo.mk 5, Photo.mk 3],
         Observation.mk none [Photo.mk 5]]).2 5 = some s ∧ s ≠ "") ∧
    dictLookup ([(5, "cc-by")] ++ [(5, "unknown")]) 5 = some "unknown" ∧
    licenseValue (some "") = "unknown" :=
  ⟨(C9_get_pictures_from_taxa_unique_sorted_licenses _).1.1,
   (C9_get_pictures_from_taxa_unique_sorted_licenses _).2.1 5,
   (C9_get_pictures_from_taxa_unique_sorted_licenses
      [Observation.mk (some "cc-by") [Photo.mk 5, Photo.mk 3],
       Observation.mk none [Photo.mk 5]]).2.2.1 5
     (((C9_get_pictures_from_taxa_unique_sorted_licenses _).2.1 5).2 (by decide)),
   (C9_get_pictures_from_taxa_unique_sorted_licenses []).2.2.2.2.1 [(5, "cc-by")]
     5 "unknown",
   (C9_get_pictures_from_taxa_unique_sorted_licenses []).2.2.2.2.2.2.1⟩

/-- C10 (Status-300 boundary inconsistency): `minka_get` raises the HTTP
error exactly when the status code is strictly greater than 300 — a status
of exactly 300 is treated as a successful response and its body returned —
while a `download_picture` attempt succeeds exactly when some candidate's
status code is strictly below 300, so with every status equal to 300 no
extension succeeds and the handler reports failure after the last
candidate. -/
theorem C10_status_300_boundary :
    (∀ (ρ : Type) (net : Nat → HttpResponse ρ) (page : Nat),
      (∃ e, minka_get net page = Except.error e) ↔ 300 < (net page).status_code) ∧
    (∀ (ρ : Type) (net : String → HttpResponse ρ) (pic_id : Nat) (output : String),
      ((download_picture net pic_id output).1.1 = true ↔
        ∃ f ∈ formats, (net (picUrl pic_id f)).status_code < 300)) ∧
    minka_get (fun _ => HttpResponse.mk 300 (0 : Nat)) 1 = Except.ok 0 ∧
    (download_picture (fun _ => HttpResponse.mk 300 (0 : Nat)) 7 "out").1 =
      (false, picUrl 7 "png") := by
  refine ⟨?_, ?_, ?_, ?_⟩
  · intro ρ net page
    unfold minka_get
    by_cases h : 300 < (net page).status_code
    · simp [h]
    · simp [h]
  · intro ρ net pic_id output
    have hfst : (download_picture net pic_id output).1.1 =
        (downloadAttempts net pic_id "jpeg" ["jpg", "png"]).1 := rfl
    rw [hfst]
    exact downloadAttempts_fst_true_iff net pic_id ["jpg", "png"] "jpeg"
  · rfl
  · rfl

end MinkaDownloader
